import Mathlib

/-
Shallow embedding of the URL shortener backend (src/backend/server.js).

The registry (the JS `Map` called `urlDatabase`) is modelled as an ordered
association list, preserving the Map's insertion-order iteration semantics.
JS timestamps are `Int` (epoch milliseconds); the stored `ttl` field, which
in the source can be `null`, `NaN`, or a number, is modelled by `JsTtl`.
Randomness (`generateShortId`), the clock (`Date.now()`), the QR collaborator
and the external URL validator are passed in as explicit parameters.
File persistence (`saveData`) only mirrors the in-memory table and is not
modelled; each handler returns the updated in-memory registry.
-/

/-- The value stored in `UrlEntry.ttl`: `null`, `NaN` (from `parseInt` on a
non-numeric string), or an actual number. -/
inductive JsTtl
  | null
  | nan
  | num (n : Int)
deriving DecidableEq, Repr

/-- One shortened-URL record, mirroring the fields set up by the `UrlEntry`
constructor in server.js. The two JS `Map` fields (`referrers`,
`browserStats`) are ordered association lists from label to hit count. -/
structure UrlEntry where
  longUrl : String
  shortId : String
  createdAt : Int
  ttl : JsTtl
  accessCount : Nat
  lastAccessed : Option Int
  referrers : List (String × Nat)
  browserStats : List (String × Nat)
  qrCode : Option String
deriving DecidableEq, Repr

/-- JS `a || b` for an optional string `a` (where `undefined`/`null` is `none`
and the empty string is falsy). -/
def jsOrStr : Option String → String → String
  | none, d => d
  | some s, d => if s == "" then d else s

/-- The `UrlEntry` constructor: `this.shortId = customSlug || shortId`, all
counters zeroed, `referrers`/`browserStats` empty, `qrCode` null. -/
def UrlEntry.make (longUrl shortId : String) (createdAt : Int) (ttl : JsTtl)
    (customSlug : Option String) : UrlEntry :=
  { longUrl := longUrl
    shortId := jsOrStr customSlug shortId
    createdAt := createdAt
    ttl := ttl
    accessCount := 0
    lastAccessed := none
    referrers := []
    browserStats := []
    qrCode := none }

/-- `isExpired()`: `if (!this.ttl) return false; return now > createdAt + ttl`.
A falsy ttl (`null`, `NaN`, or `0`) short-circuits to `false`. -/
def UrlEntry.isExpired (e : UrlEntry) (now : Int) : Bool :=
  match e.ttl with
  | JsTtl.null => false
  | JsTtl.nan => false
  | JsTtl.num n => if n = 0 then false else decide (now > e.createdAt + n)

/-- Does `pat` occur at the start of `l`? (helper for JS `String.includes`). -/
def charListHasPrefix : List Char → List Char → Bool
  | [], _ => true
  | _ :: _, [] => false
  | a :: as, b :: bs => a == b && charListHasPrefix as bs

/-- JS `s.includes(pat)`: `pat` occurs as a contiguous substring of `s`. -/
def strIncludes (s pat : String) : Bool :=
  s.toList.tails.any (fun t => charListHasPrefix pat.toList t)

/-- `getBrowserFromUserAgent`: first case-sensitive substring match in
priority order Firefox, Chrome, Safari, Edge; otherwise "Other". -/
def getBrowserFromUserAgent (userAgent : String) : String :=
  if strIncludes userAgent "Firefox" then "Firefox"
  else if strIncludes userAgent "Chrome" then "Chrome"
  else if strIncludes userAgent "Safari" then "Safari"
  else if strIncludes userAgent "Edge" then "Edge"
  else "Other"

/-- Lookup in an ordered association list (JS `Map.get`): first pair whose
key matches. -/
def alistGet {α : Type} (m : List (String × α)) (k : String) : Option α :=
  match m.find? (fun p => p.1 == k) with
  | none => none
  | some p => some p.2

/-- JS `Map.has`. -/
def alistHas {α : Type} (m : List (String × α)) (k : String) : Bool :=
  (alistGet m k).isSome

/-- JS `Map.set`: replace the value in place if the key is present (keeping
its position), otherwise append at the end. -/
def alistSet {α : Type} : List (String × α) → String → α → List (String × α)
  | [], k, v => [(k, v)]
  | p :: rest, k, v => if p.1 == k then (k, v) :: rest else p :: alistSet rest k v

/-- JS `Map.delete`: remove the entry with the given key. -/
def alistDelete {α : Type} (m : List (String × α)) (k : String) : List (String × α) :=
  m.filter (fun p => !(p.1 == k))

/-- `const c = map.get(k) || 0; map.set(k, c + 1)` — bump a frequency counter. -/
def bumpCount (m : List (String × Nat)) (k : String) : List (String × Nat) :=
  alistSet m k ((alistGet m k).getD 0 + 1)

/-- `updateStats(referrer, userAgent)`: increment `accessCount`, stamp
`lastAccessed`, bump the referrer counter and the classified browser
counter. -/
def UrlEntry.updateStats (e : UrlEntry) (referrer userAgent : String) (now : Int) : UrlEntry :=
  { e with
    accessCount := e.accessCount + 1
    lastAccessed := some now
    referrers := bumpCount e.referrers referrer
    browserStats := bumpCount e.browserStats (getBrowserFromUserAgent userAgent) }

/-- The serialized shape produced by `toJSON()`: the object spread `...this`
lists exactly the nine constructor-assigned fields, with the two Maps
flattened; note there is no `customSlug` property. -/
structure UrlEntryJson where
  longUrl : String
  shortId : String
  createdAt : Int
  ttl : JsTtl
  accessCount : Nat
  lastAccessed : Option Int
  referrers : List (String × Nat)
  browserStats : List (String × Nat)
  qrCode : Option String
deriving DecidableEq, Repr

/-- `toJSON()`: spread all own fields, Maps flattened to plain records. -/
def UrlEntry.toJSON (e : UrlEntry) : UrlEntryJson :=
  { longUrl := e.longUrl
    shortId := e.shortId
    createdAt := e.createdAt
    ttl := e.ttl
    accessCount := e.accessCount
    lastAccessed := e.lastAccessed
    referrers := e.referrers
    browserStats := e.browserStats
    qrCode := e.qrCode }

/-- `fromJSON(json)`: rebuild via the constructor — reading `json.customSlug`,
a property `toJSON` never writes, hence `undefined` (`none`) — then restore
the counters, Maps and QR payload. -/
def UrlEntry.fromJSON (j : UrlEntryJson) : UrlEntry :=
  let e := UrlEntry.make j.longUrl j.shortId j.createdAt j.ttl none
  { e with
    accessCount := j.accessCount
    lastAccessed := j.lastAccessed
    referrers := j.referrers
    browserStats := j.browserStats
    qrCode := j.qrCode }

/-- The in-memory `urlDatabase` Map, as an ordered association list. -/
abbrev Registry := List (String × UrlEntry)

/-- The `ttl` field of a shorten request body as JSON can deliver it:
absent (`undefined`), a number, or a string. -/
inductive TtlField
  | absent
  | numV (n : Int)
  | strV (s : String)
deriving DecidableEq, Repr

/-- JS truthiness of the request `ttl` field (`undefined`, `0` and `""` are
falsy). -/
def TtlField.truthy : TtlField → Bool
  | TtlField.absent => false
  | TtlField.numV n => !(n == 0)
  | TtlField.strV s => !(s == "")

/-- Decimal value of a nonempty run of digit characters. -/
def digitsToNat (l : List Char) : Nat :=
  l.foldl (fun acc c => acc * 10 + (c.toNat - '0'.toNat)) 0

/-- Model of the JS builtin `parseInt` on the base-10 inputs a ttl takes:
skip leading whitespace, optional sign, then the longest leading run of
decimal digits; no digits means `NaN`. -/
def jsParseInt (s : String) : JsTtl :=
  let t := s.toList.dropWhile Char.isWhitespace
  let neg := t.head? == some '-'
  let rest := if t.head? == some '-' || t.head? == some '+' then t.drop 1 else t
  let digits := rest.takeWhile Char.isDigit
  if digits.isEmpty then JsTtl.nan
  else JsTtl.num (if neg then -(digitsToNat digits : Int) else (digitsToNat digits : Int))

/-- `parseInt(ttl)` for each shape of the request field (a number is
stringified first, which for integers is the identity). -/
def TtlField.parsedInt : TtlField → JsTtl
  | TtlField.absent => JsTtl.nan
  | TtlField.numV n => JsTtl.num n
  | TtlField.strV s => jsParseInt s

/-- `ttl ? parseInt(ttl) : null` from the shorten handler. -/
def TtlField.toStored (tf : TtlField) : JsTtl :=
  if tf.truthy then tf.parsedInt else JsTtl.null

/-- `isValidCustomSlug`: the regex `^[a-zA-Z0-9-_]+$`. -/
def isValidCustomSlug (s : String) : Bool :=
  !(s == "") && s.toList.all (fun c => c.isAlphanum || c == '-' || c == '_')

/-- JS truthiness of the optional `customSlug` request field. -/
def slugTruthy : Option String → Bool
  | none => false
  | some s => !(s == "")

/-- Outcome of `POST /api/shorten` (HTTP 400 / 400 / 409 / 200). On success
the response's `shortId` and the entry whose stats fill the body. -/
inductive ShortenOutcome
  | invalidUrl
  | invalidSlug
  | slugTaken
  | ok (shortId : String) (entry : UrlEntry)
deriving DecidableEq, Repr

/-- The `if (customSlug) { ... }` validation block of the shorten handler:
`some` an error outcome if it returns early, `none` if control falls
through. -/
def slugCheck (db : Registry) (customSlug : Option String) : Option ShortenOutcome :=
  if slugTruthy customSlug then
    let slug := customSlug.getD ""
    if !(isValidCustomSlug slug) then some ShortenOutcome.invalidSlug
    else if alistHas db slug then some ShortenOutcome.slugTaken
    else none
  else none

/-- `POST /api/shorten`. `isWebUri` is the external validator collaborator,
`genId` the value `generateShortId()` would return this call, `qr` what the
QR collaborator returns for the full short link. Returns the HTTP outcome
paired with the registry after the call. -/
def shortenHandler (isWebUri : String → Bool) (db : Registry) (longUrl : String)
    (ttlField : TtlField) (customSlug : Option String) (now : Int)
    (genId : String) (qr : Option String) : ShortenOutcome × Registry :=
  if !(isWebUri longUrl) then (ShortenOutcome.invalidUrl, db)
  else
    match slugCheck db customSlug with
    | some err => (err, db)
    | none =>
      match db.find? (fun p => p.2.longUrl == longUrl && !(p.2.isExpired now)) with
      | some p => (ShortenOutcome.ok p.1 p.2, db)
      | none =>
        let shortId := jsOrStr customSlug genId
        let e0 := UrlEntry.make longUrl shortId now ttlField.toStored customSlug
        let e := { e0 with qrCode := qr }
        (ShortenOutcome.ok shortId e, alistSet db shortId e)

/-- Outcome of `GET /:shortId` (404 not found / 404 expired / 302). -/
inductive RedirectOutcome
  | notFound
  | expired
  | redirected (longUrl : String)
deriving DecidableEq, Repr

/-- `GET /:shortId`: look up; missing → 404; expired → delete and 404;
otherwise record the access (missing referrer header → "Direct", missing
user-agent → "Unknown") and redirect. Returns the outcome paired with the
registry after the call. -/
def redirectHandler (db : Registry) (shortId : String)
    (referrer userAgent : Option String) (now : Int) : RedirectOutcome × Registry :=
  match alistGet db shortId with
  | none => (RedirectOutcome.notFound, db)
  | some e =>
    if e.isExpired now then (RedirectOutcome.expired, alistDelete db shortId)
    else
      let e2 := e.updateStats (jsOrStr referrer "Direct") (jsOrStr userAgent "Unknown") now
      (RedirectOutcome.redirected e.longUrl, alistSet db shortId e2)

/-- Outcome of `GET /api/stats/:shortId` (404 / 200 with the entry whose
fields fill the response, expired or not). -/
inductive StatsOutcome
  | notFound
  | ok (longUrl shortId : String) (entry : UrlEntry)
deriving DecidableEq, Repr

/-- `GET /api/stats/:shortId`: plain lookup, no expiry side effects. -/
def statsHandler (db : Registry) (shortId : String) : StatsOutcome :=
  match alistGet db shortId with
  | none => StatsOutcome.notFound
  | some e => StatsOutcome.ok e.longUrl e.shortId e

/-- `cleanupExpiredUrls`: iterate the whole table deleting every entry whose
expiry predicate holds at `now`. -/
def cleanupExpiredUrls (now : Int) : Registry → Registry
  | [] => []
  | p :: rest =>
    if p.2.isExpired now then cleanupExpiredUrls now rest
    else p :: cleanupExpiredUrls now rest

/-- One recorded request to `GET /:shortId`: optional referrer and
user-agent headers, and the time at which it arrives. -/
structure AccessReq where
  referrer : Option String
  userAgent : Option String
  now : Int
deriving DecidableEq, Repr

/-- Fold a sequence of redirect requests for the same `shortId` through the
redirect handler, threading the registry. -/
def redirectMany (shortId : String) : Registry → List AccessReq → Registry
  | db, [] => db
  | db, q :: rest =>
    redirectMany shortId (redirectHandler db shortId q.referrer q.userAgent q.now).2 rest

theorem alistGet_set_self {α : Type} (m : List (String × α)) (k : String) (v : α) :
    alistGet (alistSet m k v) k = some v := by
  induction m with
  | nil => simp [alistSet, alistGet]
  | cons p rest ih =>
    by_cases h : p.1 == k
    · simp [alistSet, h, alistGet]
    · simpa [alistSet, h, alistGet] using ih

theorem alistGet_set_ne {α : Type} (m : List (String × α)) (k k2 : String) (v : α)
    (hne : k2 ≠ k) : alistGet (alistSet m k v) k2 = alistGet m k2 := by
  have hk2 : (k == k2) = false := beq_eq_false_iff_ne.mpr (Ne.symm hne)
  induction m with
  | nil => simp [alistSet, alistGet, List.find?, hk2]
  | cons p rest ih =>
    by_cases h : p.1 == k
    · have hp2 : (p.1 == k2) = false := by
        refine beq_eq_false_iff_ne.mpr ?_
        intro hc
        exact hne (hc.symm.trans (beq_iff_eq.mp h))
      simp [alistSet, h, alistGet, List.find?, hp2, hk2]
    · by_cases h2 : p.1 == k2
      · simp [alistSet, h, alistGet, List.find?, h2]
      · simpa [alistSet, h, alistGet, List.find?, h2] using ih

theorem alistGet_delete_self {α : Type} (m : List (String × α)) (k : String) :
    alistGet (alistDelete m k) k = none := by
  have hall : ∀ p ∈ alistDelete m k, ¬ (p.1 == k) := by
    intro p hp
    have := List.of_mem_filter hp
    simpa using this
  unfold alistGet
  rw [List.find?_eq_none.mpr (by intro p hp; exact by simpa using hall p hp)]

theorem mem_alistSet {α : Type} (m : List (String × α)) (k : String) (v : α)
    (x : String × α) (hx : x ∈ alistSet m k v) : x = (k, v) ∨ x ∈ m := by
  induction m with
  | nil => simpa [alistSet] using hx
  | cons p rest ih =>
    by_cases h : p.1 == k
    · simp only [alistSet, h, if_pos] at hx
      rcases List.mem_cons.mp hx with h1 | h1
      · exact Or.inl h1
      · exact Or.inr (List.mem_cons_of_mem _ h1)
    · simp only [alistSet, h, if_neg, Bool.false_eq_true, not_false_iff] at hx
      rcases List.mem_cons.mp hx with h1 | h1
      · exact Or.inr (h1 ▸ List.mem_cons_self _ _)
      · rcases ih h1 with h2 | h2
        · exact Or.inl h2
        · exact Or.inr (List.mem_cons_of_mem _ h2)

theorem mem_alistDelete {α : Type} (m : List (String × α)) (k : String)
    (x : String × α) (hx : x ∈ alistDelete m k) : x ∈ m :=
  List.mem_of_mem_filter hx

theorem alistGet_eq_some_mem {α : Type} (m : List (String × α)) (k : String) (v : α)
    (h : alistGet m k = some v) : ∃ p, p ∈ m ∧ p.1 = k ∧ p.2 = v := by
  unfold alistGet at h
  cases hf : m.find? (fun p => p.1 == k) with
  | none => rw [hf] at h; exact absurd h (by simp)
  | some p =>
    rw [hf] at h
    refine ⟨p, List.mem_of_find?_eq_some hf, ?_, by simpa using h⟩
    have := List.find?_some hf
    simpa using this

theorem find?_of_exists_mem {α : Type} (l : List α) (p : α → Bool)
    (h : ∃ x ∈ l, p x = true) : ∃ y, l.find? p = some y ∧ y ∈ l ∧ p y = true := by
  cases hf : l.find? p with
  | none =>
    rcases h with ⟨x, hx, hpx⟩
    exact absurd hpx (by simpa using List.find?_eq_none.mp hf x hx)
  | some y =>
    exact ⟨y, rfl, List.mem_of_find?_eq_some hf, List.find?_some hf⟩

theorem updateStats_isExpired (e : UrlEntry) (r ua : String) (n t : Int) :
    (e.updateStats r ua n).isExpired t = e.isExpired t := rfl

theorem alistGet_bumpCount (m : List (String × Nat)) (k : String) :
    alistGet (bumpCount m k) k = some ((alistGet m k).getD 0 + 1) :=
  alistGet_set_self m k _

/-- Sample entry with a finite ttl: created at t=100, lives 50ms. -/
def entA : UrlEntry := UrlEntry.make "https://example.com" "aaaa1111" 100 (JsTtl.num 50) none

/-- Sample entry with no ttl: never expires. -/
def entB : UrlEntry := UrlEntry.make "https://other.org" "bbbb2222" 0 JsTtl.null none

/-- Sample registry holding both sample entries. -/
def dbAB : Registry := [("aaaa1111", entA), ("bbbb2222", entB)]

/-- Claim C4: for an entry whose ttl is a positive integer the expiry
predicate holds exactly when `now > createdAt + ttl`; an entry with a null
ttl is never expired; and the predicate is monotone in `now` (once true it
never reverts to false), since `createdAt` and `ttl` are immutable. -/
theorem expiry_predicate_correct (e : UrlEntry) (n now now2 : Int) :
    (e.ttl = JsTtl.num n → 0 < n → (e.isExpired now = true ↔ now > e.createdAt + n)) ∧
    (e.ttl = JsTtl.null → e.isExpired now = false) ∧
    (now ≤ now2 → e.isExpired now = true → e.isExpired now2 = true) := by
  refine ⟨?_, ?_, ?_⟩
  · intro ht hn
    have hn0 : n ≠ 0 := by omega
    simp [UrlEntry.isExpired, ht, hn0]
  · intro ht
    simp [UrlEntry.isExpired, ht]
  · intro hle h
    cases httl : e.ttl with
    | null => simp [UrlEntry.isExpired, httl] at h
    | nan => simp [UrlEntry.isExpired, httl] at h
    | num m =>
      by_cases hm : m = 0
      · simp [UrlEntry.isExpired, httl, hm] at h
      · simp only [UrlEntry.isExpired, httl, if_neg hm, decide_eq_true_eq] at h ⊢
        omega

theorem expiry_predicate_correct_witness :
    (entA.isExpired 151 = true ↔ (151 : Int) > entA.createdAt + 50) ∧
    entA.isExpired 999 = true := by
  refine ⟨(expiry_predicate_correct entA 50 151 999).1 rfl (by norm_num), ?_⟩
  exact (expiry_predicate_correct entA 50 151 999).2.2 (by norm_num)
    (((expiry_predicate_correct entA 50 151 999).1 rfl (by norm_num)).mpr (by decide))

/-- Claim C9: serialization round-trip — `fromJSON (toJSON e)` reconstructs
an entry equal to `e` in every field; in particular `shortId` is preserved
even though `toJSON` writes no `customSlug` property, because the
constructor falls back to the stored `shortId` when `customSlug` is
absent. -/
theorem toJSON_fromJSON_roundtrip (e : UrlEntry) :
    UrlEntry.fromJSON (UrlEntry.toJSON e) = e := by
  cases e
  simp [UrlEntry.fromJSON, UrlEntry.toJSON, UrlEntry.make, jsOrStr]

/-- Claim C6: the sweep removes exactly the entries expired at `now` and no
others; every live entry remains, as the very same key/entry pair, with all
of its fields unchanged. -/
theorem sweep_removes_exactly_expired (db : Registry) (now : Int) (p : String × UrlEntry) :
    p ∈ cleanupExpiredUrls now db ↔ p ∈ db ∧ p.2.isExpired now = false := by
  induction db with
  | nil => simp [cleanupExpiredUrls]
  | cons q rest ih =>
    simp only [cleanupExpiredUrls]
    by_cases h : q.2.isExpired now = true
    · rw [if_pos h]
      rw [ih, List.mem_cons]
      constructor
      · rintro ⟨hm, hl⟩
        exact ⟨Or.inr hm, hl⟩
      · rintro ⟨hq | hm, hl⟩
        · rw [hq] at hl
          exact absurd (h.symm.trans hl) (by simp)
        · exact ⟨hm, hl⟩
    · rw [if_neg h]
      rw [List.mem_cons, List.mem_cons, ih]
      constructor
      · rintro (hq | ⟨hm, hl⟩)
        · refine ⟨Or.inl hq, ?_⟩
          rw [hq]
          exact Bool.eq_false_iff.mpr h
        · exact ⟨Or.inr hm, hl⟩
      · rintro ⟨hq | hm, hl⟩
        · exact Or.inl hq
        · exact Or.inr ⟨hm, hl⟩

/-- Claim C2: a create request with a valid longUrl and a charset-valid
customSlug that any entry (expired or not) already holds as its key fails
with SlugTaken (HTTP 409) and leaves the registry unchanged — for every
registry, including ones that also hold a live entry with the same
longUrl. -/
theorem custom_slug_taken_conflict (isWebUri : String → Bool) (db : Registry)
    (longUrl slug : String) (ttlField : TtlField) (now : Int) (genId : String)
    (qr : Option String)
    (hvalid : isWebUri longUrl = true)
    (hslug : isValidCustomSlug slug = true)
    (htaken : alistHas db slug = true) :
    shortenHandler isWebUri db longUrl ttlField (some slug) now genId qr =
      (ShortenOutcome.slugTaken, db) := by
  have hne : (slug == "") = false := by
    unfold isValidCustomSlug at hslug
    have hb := ((Bool.and_eq_true _ _).mp hslug).1
    simpa using hb
  simp [shortenHandler, hvalid, slugCheck, slugTruthy, hne, hslug, htaken]

theorem custom_slug_taken_conflict_witness :
    shortenHandler (fun _ => true) dbAB "https://example.com" TtlField.absent
      (some "aaaa1111") 120 "cccc3333" none = (ShortenOutcome.slugTaken, dbAB) :=
  custom_slug_taken_conflict (fun _ => true) dbAB "https://example.com" "aaaa1111"
    TtlField.absent 120 "cccc3333" none rfl (by decide) (by decide)

/-- Claim C5: a redirect request for a shortId whose entry exists but is
expired deletes that entry from the registry and reports Expired (404), so
a subsequent stats lookup for the same shortId returns NotFound; the entry
is removed without any access statistics being recorded on it. -/
theorem expired_redirect_deletes_entry (db : Registry) (sid : String)
    (referrer userAgent : Option String) (now : Int) (e : UrlEntry)
    (hget : alistGet db sid = some e)
    (hexp : e.isExpired now = true) :
    redirectHandler db sid referrer userAgent now =
      (RedirectOutcome.expired, alistDelete db sid) ∧
    statsHandler (alistDelete db sid) sid = StatsOutcome.notFound := by
  constructor
  · simp [redirectHandler, hget, hexp]
  · simp [statsHandler, alistGet_delete_self]

theorem expired_redirect_deletes_entry_witness :
    redirectHandler dbAB "aaaa1111" none none 200 =
      (RedirectOutcome.expired, alistDelete dbAB "aaaa1111") ∧
    statsHandler (alistDelete dbAB "aaaa1111") "aaaa1111" = StatsOutcome.notFound :=
  expired_redirect_deletes_entry dbAB "aaaa1111" none none 200 entA (by decide) (by decide)

/-- Claim C1: idempotent de-duplication — if a live (non-expired) entry with
exactly the requested longUrl exists, a shorten request with that valid
longUrl and no customSlug returns an existing live matching entry's shortId
and leaves the entry and the whole table unchanged (so shortening the same
valid longUrl twice yields the same shortId both times). -/
theorem shorten_dedup_idempotent (isWebUri : String → Bool) (db : Registry)
    (longUrl : String) (ttlField : TtlField) (now : Int) (genId : String)
    (qr : Option String)
    (hvalid : isWebUri longUrl = true)
    (hdup : ∃ p ∈ db, p.2.longUrl = longUrl ∧ p.2.isExpired now = false) :
    ∃ sid e, (sid, e) ∈ db ∧ e.longUrl = longUrl ∧ e.isExpired now = false ∧
      shortenHandler isWebUri db longUrl ttlField none now genId qr =
        (ShortenOutcome.ok sid e, db) := by
  rcases hdup with ⟨p, hp, hurl, hlive⟩
  have hex : ∃ x ∈ db, (fun q => q.2.longUrl == longUrl && !(q.2.isExpired now)) x = true :=
    ⟨p, hp, by simp [hurl, hlive]⟩
  rcases find?_of_exists_mem db _ hex with ⟨y, hfind, hymem, hyp⟩
  simp only [Bool.and_eq_true, beq_iff_eq, Bool.not_eq_true'] at hyp
  refine ⟨y.1, y.2, by simpa using hymem, hyp.1, hyp.2, ?_⟩
  simp [shortenHandler, hvalid, slugCheck, slugTruthy, hfind]

theorem shorten_dedup_idempotent_witness :
    ∃ sid e, (sid, e) ∈ dbAB ∧ e.longUrl = "https://example.com" ∧
      e.isExpired 120 = false ∧
      shortenHandler (fun _ => true) dbAB "https://example.com" TtlField.absent none
        120 "cccc3333" none = (ShortenOutcome.ok sid e, dbAB) :=
  shorten_dedup_idempotent (fun _ => true) dbAB "https://example.com" TtlField.absent
    120 "cccc3333" none rfl (by decide)

/-- Claim C3: with a valid longUrl, a charset-valid customSlug not already a
key, and a live entry holding the same longUrl, the shorten request returns
the dedup hit — an existing live matching entry with its existing shortId —
and the table is unchanged, so no new entry is created under the requested
customSlug: matching longUrl takes priority over the custom slug. -/
theorem dedup_overrides_custom_slug (isWebUri : String → Bool) (db : Registry)
    (longUrl slug : String) (ttlField : TtlField) (now : Int) (genId : String)
    (qr : Option String)
    (hvalid : isWebUri longUrl = true)
    (hslug : isValidCustomSlug slug = true)
    (hfree : alistHas db slug = false)
    (hdup : ∃ p ∈ db, p.2.longUrl = longUrl ∧ p.2.isExpired now = false) :
    ∃ sid e, (sid, e) ∈ db ∧ e.longUrl = longUrl ∧ e.isExpired now = false ∧
      shortenHandler isWebUri db longUrl ttlField (some slug) now genId qr =
        (ShortenOutcome.ok sid e, db) := by
  have hne : (slug == "") = false := by
    unfold isValidCustomSlug at hslug
    have hb := ((Bool.and_eq_true _ _).mp hslug).1
    simpa using hb
  rcases hdup with ⟨p, hp, hurl, hlive⟩
  have hex : ∃ x ∈ db, (fun q => q.2.longUrl == longUrl && !(q.2.isExpired now)) x = true :=
    ⟨p, hp, by simp [hurl, hlive]⟩
  rcases find?_of_exists_mem db _ hex with ⟨y, hfind, hymem, hyp⟩
  simp only [Bool.and_eq_true, beq_iff_eq, Bool.not_eq_true'] at hyp
  refine ⟨y.1, y.2, by simpa using hymem, hyp.1, hyp.2, ?_⟩
  simp [shortenHandler, hvalid, slugCheck, slugTruthy, hne, hslug, hfree, hfind]

theorem dedup_overrides_custom_slug_witness :
    ∃ sid e, (sid, e) ∈ dbAB ∧ e.longUrl = "https://example.com" ∧
      e.isExpired 120 = false ∧
      shortenHandler (fun _ => true) dbAB "https://example.com" TtlField.absent
        (some "promo") 120 "cccc3333" none = (ShortenOutcome.ok sid e, dbAB) :=
  dedup_overrides_custom_slug (fun _ => true) dbAB "https://example.com" "promo"
    TtlField.absent 120 "cccc3333" none rfl (by decide) (by decide) (by decide)

/-- Claim C8: the browser classifier returns the first match, in priority
order, of the case-sensitive substrings "Firefox", "Chrome", "Safari",
"Edge", and "Other" when none matches; a request with no user-agent header
feeds the literal string "Unknown" into the same matcher, so the recorded
bucket is "Other"; a request with no referrer header increments the
referrer counter labelled "Direct". -/
theorem browser_and_referrer_classification :
    (∀ ua, strIncludes ua "Firefox" = true → getBrowserFromUserAgent ua = "Firefox") ∧
    (∀ ua, strIncludes ua "Firefox" = false → strIncludes ua "Chrome" = true →
      getBrowserFromUserAgent ua = "Chrome") ∧
    (∀ ua, strIncludes ua "Firefox" = false → strIncludes ua "Chrome" = false →
      strIncludes ua "Safari" = true → getBrowserFromUserAgent ua = "Safari") ∧
    (∀ ua, strIncludes ua "Firefox" = false → strIncludes ua "Chrome" = false →
      strIncludes ua "Safari" = false → strIncludes ua "Edge" = true →
      getBrowserFromUserAgent ua = "Edge") ∧
    (∀ ua, strIncludes ua "Firefox" = false → strIncludes ua "Chrome" = false →
      strIncludes ua "Safari" = false → strIncludes ua "Edge" = false →
      getBrowserFromUserAgent ua = "Other") ∧
    getBrowserFromUserAgent "Unknown" = "Other" ∧
    (∀ (db : Registry) (sid : String) (e : UrlEntry) (now : Int),
      alistGet db sid = some e → e.isExpired now = false →
      redirectHandler db sid none none now =
        (RedirectOutcome.redirected e.longUrl,
         alistSet db sid (e.updateStats "Direct" "Unknown" now)) ∧
      alistGet (e.updateStats "Direct" "Unknown" now).browserStats "Other" =
        some ((alistGet e.browserStats "Other").getD 0 + 1) ∧
      alistGet (e.updateStats "Direct" "Unknown" now).referrers "Direct" =
        some ((alistGet e.referrers "Direct").getD 0 + 1)) := by
  have hU : getBrowserFromUserAgent "Unknown" = "Other" := by decide
  refine ⟨?_, ?_, ?_, ?_, ?_, hU, ?_⟩
  · intro ua h1
    simp [getBrowserFromUserAgent, h1]
  · intro ua h1 h2
    simp [getBrowserFromUserAgent, h1, h2]
  · intro ua h1 h2 h3
    simp [getBrowserFromUserAgent, h1, h2, h3]
  · intro ua h1 h2 h3 h4
    simp [getBrowserFromUserAgent, h1, h2, h3, h4]
  · intro ua h1 h2 h3 h4
    simp [getBrowserFromUserAgent, h1, h2, h3, h4]
  · intro db sid e now hget hlive
    refine ⟨by simp [redirectHandler, hget, hlive, jsOrStr], ?_, ?_⟩
    · simp only [UrlEntry.updateStats, hU]
      exact alistGet_bumpCount e.browserStats "Other"
    · simp only [UrlEntry.updateStats]
      exact alistGet_bumpCount e.referrers "Direct"

theorem browser_and_referrer_classification_witness :
    getBrowserFromUserAgent "Mozilla/5.0 Chrome/99.0" = "Chrome" ∧
    (redirectHandler dbAB "bbbb2222" none none 7 =
      (RedirectOutcome.redirected entB.longUrl,
       alistSet dbAB "bbbb2222" (entB.updateStats "Direct" "Unknown" 7)) ∧
     alistGet (entB.updateStats "Direct" "Unknown" 7).browserStats "Other" =
       some ((alistGet entB.browserStats "Other").getD 0 + 1) ∧
     alistGet (entB.updateStats "Direct" "Unknown" 7).referrers "Direct" =
       some ((alistGet entB.referrers "Direct").getD 0 + 1)) :=
  ⟨browser_and_referrer_classification.2.1 "Mozilla/5.0 Chrome/99.0"
      (by decide) (by decide),
   browser_and_referrer_classification.2.2.2.2.2.2 dbAB "bbbb2222" entB 7
      (by decide) (by decide)⟩

/-- Claim C10: a shorten request whose ttl field is the number 0, or a
string that parseInt turns into NaN, creates an entry that never expires —
the expiry check treats every falsy stored ttl like an absent one — and,
for every entry whatsoever, the expiry predicate can only ever hold when
the stored ttl is a nonzero number. -/
theorem falsy_ttl_never_expires :
    (∀ (isWebUri : String → Bool) (db : Registry) (longUrl : String) (tf : TtlField)
        (customSlug : Option String) (now : Int) (genId : String) (qr : Option String),
      isWebUri longUrl = true →
      slugCheck db customSlug = none →
      db.find? (fun p => p.2.longUrl == longUrl && !(p.2.isExpired now)) = none →
      (tf = TtlField.numV 0 ∨ ∃ s, tf = TtlField.strV s ∧ jsParseInt s = JsTtl.nan) →
      ∃ e, shortenHandler isWebUri db longUrl tf customSlug now genId qr =
          (ShortenOutcome.ok (jsOrStr customSlug genId) e,
           alistSet db (jsOrStr customSlug genId) e) ∧
        ∀ t, e.isExpired t = false) ∧
    (∀ (e : UrlEntry) (t : Int), e.isExpired t = true →
      ∃ n, e.ttl = JsTtl.num n ∧ n ≠ 0) := by
  constructor
  · intro isWebUri db longUrl tf customSlug now genId qr hvalid hsc hfind htf
    have hstored : tf.toStored = JsTtl.null ∨ tf.toStored = JsTtl.nan := by
      rcases htf with h0 | ⟨s, hs, hnan⟩
      · left
        simp [h0, TtlField.toStored, TtlField.truthy]
      · by_cases he : s = ""
        · left
          simp [hs, he, TtlField.toStored, TtlField.truthy]
        · right
          simp [hs, TtlField.toStored, TtlField.truthy, he, TtlField.parsedInt, hnan]
    refine ⟨{ UrlEntry.make longUrl (jsOrStr customSlug genId) now tf.toStored customSlug
              with qrCode := qr }, ?_, ?_⟩
    · simp [shortenHandler, hvalid, hsc, hfind]
    · intro t
      rcases hstored with h | h <;> simp [UrlEntry.isExpired, UrlEntry.make, h]
  · intro e t h
    cases httl : e.ttl with
    | null => simp [UrlEntry.isExpired, httl] at h
    | nan => simp [UrlEntry.isExpired, httl] at h
    | num n =>
      by_cases hn : n = 0
      · simp [UrlEntry.isExpired, httl, hn] at h
      · exact ⟨n, rfl, hn⟩

theorem falsy_ttl_never_expires_witness :
    (∃ e, shortenHandler (fun _ => true) [] "https://fresh.net" (TtlField.strV "soon")
          none 9 "dddd4444" none =
        (ShortenOutcome.ok (jsOrStr none "dddd4444") e,
         alistSet [] (jsOrStr none "dddd4444") e) ∧
      ∀ t, e.isExpired t = false) ∧
    (∃ n, entA.ttl = JsTtl.num n ∧ n ≠ 0) :=
  ⟨falsy_ttl_never_expires.1 (fun _ => true) [] "https://fresh.net"
      (TtlField.strV "soon") none 9 "dddd4444" none rfl rfl rfl
      (Or.inr ⟨"soon", rfl, by decide⟩),
   falsy_ttl_never_expires.2 entA 999 (by decide)⟩

/-- Claim C7: `accessCount` starts at 0 at creation; each successful
redirect increments it by one and sets `lastAccessed` to the current time,
so after N successful redirects it equals its initial value plus N; and no
operation other than entry deletion/replacement ever decreases or resets
it — every entry in a post-operation registry is an unchanged pre-existing
pair, the redirected pair with count exactly one larger, or a freshly
created entry starting at 0. -/
theorem access_count_correct :
    (∀ (longUrl shortId : String) (createdAt : Int) (ttl : JsTtl)
        (customSlug : Option String),
      (UrlEntry.make longUrl shortId createdAt ttl customSlug).accessCount = 0) ∧
    (∀ (e : UrlEntry) (r ua : String) (n : Int),
      (e.updateStats r ua n).accessCount = e.accessCount + 1 ∧
      (e.updateStats r ua n).lastAccessed = some n) ∧
    (∀ (reqs : List AccessReq) (db : Registry) (sid : String) (e : UrlEntry),
      alistGet db sid = some e →
      (∀ q ∈ reqs, e.isExpired q.now = false) →
      ∃ e2, alistGet (redirectMany sid db reqs) sid = some e2 ∧
        e2.accessCount = e.accessCount + reqs.length) ∧
    (∀ (db : Registry) (sid : String) (r ua : Option String) (now : Int)
        (x : String × UrlEntry), x ∈ (redirectHandler db sid r ua now).2 →
      x ∈ db ∨ ∃ e, alistGet db sid = some e ∧ x.2.accessCount = e.accessCount + 1) ∧
    (∀ (db : Registry) (now : Int) (x : String × UrlEntry),
      x ∈ cleanupExpiredUrls now db → x ∈ db) ∧
    (∀ (isWebUri : String → Bool) (db : Registry) (longUrl : String) (tf : TtlField)
        (customSlug : Option String) (now : Int) (genId : String) (qr : Option String)
        (x : String × UrlEntry),
      x ∈ (shortenHandler isWebUri db longUrl tf customSlug now genId qr).2 →
      x ∈ db ∨ x.2.accessCount = 0) := by
  refine ⟨?_, ?_, ?_, ?_, ?_, ?_⟩
  · intro longUrl shortId createdAt ttl customSlug
    rfl
  · intro e r ua n
    exact ⟨rfl, rfl⟩
  · intro reqs
    induction reqs with
    | nil =>
      intro db sid e hget hlive
      exact ⟨e, by simpa [redirectMany] using hget, by simp⟩
    | cons q rest ih =>
      intro db sid e hget hlive
      have hq : e.isExpired q.now = false := hlive q (List.mem_cons_self _ _)
      have hstep : redirectHandler db sid q.referrer q.userAgent q.now =
          (RedirectOutcome.redirected e.longUrl,
           alistSet db sid
             (e.updateStats (jsOrStr q.referrer "Direct")
               (jsOrStr q.userAgent "Unknown") q.now)) := by
        simp [redirectHandler, hget, hq]
      have hget2 : alistGet
          (alistSet db sid
            (e.updateStats (jsOrStr q.referrer "Direct")
              (jsOrStr q.userAgent "Unknown") q.now)) sid =
          some (e.updateStats (jsOrStr q.referrer "Direct")
            (jsOrStr q.userAgent "Unknown") q.now) :=
        alistGet_set_self db sid _
      have hlive2 : ∀ q2 ∈ rest,
          (e.updateStats (jsOrStr q.referrer "Direct")
            (jsOrStr q.userAgent "Unknown") q.now).isExpired q2.now = false := by
        intro q2 hq2
        rw [updateStats_isExpired]
        exact hlive q2 (List.mem_cons_of_mem _ hq2)
      rcases ih _ sid _ hget2 hlive2 with ⟨e3, hg3, hc3⟩
      refine ⟨e3, ?_, ?_⟩
      · simpa [redirectMany, hstep] using hg3
      · rw [hc3]
        simp [UrlEntry.updateStats]
        omega
  · intro db sid r ua now x hx
    cases hget : alistGet db sid with
    | none =>
      left
      simpa [redirectHandler, hget] using hx
    | some e =>
      by_cases hexp : e.isExpired now = true
      · left
        rw [show (redirectHandler db sid r ua now).2 = alistDelete db sid by
          simp [redirectHandler, hget, hexp]] at hx
        exact mem_alistDelete db sid x hx
      · rw [show (redirectHandler db sid r ua now).2 =
            alistSet db sid
              (e.updateStats (jsOrStr r "Direct") (jsOrStr ua "Unknown") now) by
          simp [redirectHandler, hget, Bool.eq_false_iff.mpr hexp]] at hx
        rcases mem_alistSet _ _ _ _ hx with h1 | h1
        · right
          refine ⟨e, rfl, ?_⟩
          rw [h1]
          rfl
        · exact Or.inl h1
  · intro db now x
    induction db with
    | nil => intro h; simp [cleanupExpiredUrls] at h
    | cons q rest ih =>
      intro h
      simp only [cleanupExpiredUrls] at h
      by_cases hq : q.2.isExpired now = true
      · rw [if_pos hq] at h
        exact List.mem_cons_of_mem _ (ih h)
      · rw [if_neg hq] at h
        rcases List.mem_cons.mp h with h1 | h1
        · exact h1 ▸ List.mem_cons_self _ _
        · exact List.mem_cons_of_mem _ (ih h1)
  · intro isWebUri db longUrl tf customSlug now genId qr x hx
    cases hv : isWebUri longUrl with
    | false =>
      left
      simpa [shortenHandler, hv] using hx
    | true =>
      cases hsc : slugCheck db customSlug with
      | some err =>
        left
        simpa [shortenHandler, hv, hsc] using hx
      | none =>
        cases hf : db.find? (fun p => p.2.longUrl == longUrl && !(p.2.isExpired now)) with
        | some p =>
          left
          simpa [shortenHandler, hv, hsc, hf] using hx
        | none =>
          rw [show (shortenHandler isWebUri db longUrl tf customSlug now genId qr).2 =
              alistSet db (jsOrStr customSlug genId)
                { UrlEntry.make longUrl (jsOrStr customSlug genId) now tf.toStored
                    customSlug with qrCode := qr } by
            simp [shortenHandler, hv, hsc, hf]] at hx
          rcases mem_alistSet _ _ _ _ hx with h1 | h1
          · right
            rw [h1]
            rfl
          · exact Or.inl h1

theorem access_count_correct_witness :
    (∃ e2, alistGet
        (redirectMany "bbbb2222" dbAB
          [⟨none, none, 5⟩, ⟨some "https://ref.io", some "Mozilla Chrome", 6⟩])
        "bbbb2222" = some e2 ∧
      e2.accessCount = entB.accessCount + 2) ∧
    ((("bbbb2222", entB.updateStats "Direct" "Unknown" 5) ∈ dbAB ∨
      ∃ e, alistGet dbAB "bbbb2222" = some e ∧
        (("bbbb2222" : String), entB.updateStats "Direct" "Unknown" 5).2.accessCount =
          e.accessCount + 1)) ∧
    (("bbbb2222", entB) ∈ dbAB) ∧
    ((("eeee5555", UrlEntry.make "https://new.example" "eeee5555" 3 JsTtl.null none) ∈
        ([] : Registry)) ∨
      (("eeee5555" : String),
        UrlEntry.make "https://new.example" "eeee5555" 3 JsTtl.null none).2.accessCount = 0) :=
  ⟨access_count_correct.2.2.1
      [⟨none, none, 5⟩, ⟨some "https://ref.io", some "Mozilla Chrome", 6⟩]
      dbAB "bbbb2222" entB (by decide) (by decide),
   access_count_correct.2.2.2.1 dbAB "bbbb2222" none none 5
      ("bbbb2222", entB.updateStats "Direct" "Unknown" 5) (by decide),
   access_count_correct.2.2.2.2.1 dbAB 120 ("bbbb2222", entB) (by decide),
   access_count_correct.2.2.2.2.2 (fun _ => true) [] "https://new.example"
      TtlField.absent none 3 "eeee5555" none
      ("eeee5555", UrlEntry.make "https://new.example" "eeee5555" 3 JsTtl.null none)
      (by decide)⟩
